import Mathlib

/-! Shallow embedding of the birb repository's single source file src/birb.cpp.

Strings are modelled as lists of characters, the filesystem as explicit maps
from paths to file contents and to the answers of the filesystem queries, and
the observable effects of each routine (lines printed to standard output,
process exit, uncaught exception) as an explicit result type. -/

/-- Strings are modelled as lists of characters. -/
abbrev Str : Type := List Char

/-- Shorthand turning a Lean string literal into the character-list model. -/
def str (s : String) : Str := s.toList

/-- A text file as seen through repeated getline calls: the sequence of lines
read, and whether the final line is terminated by a newline character (also
true for an empty file).  The flag matters because when the final line is
unterminated, a scanning loop that runs to end of file leaves that line in the
line buffer (the final getline call fails in its sentry, before erasing the
buffer), while a terminated final line is followed by a getline call that
erases the buffer and then fails. -/
structure FileContent where
  lines : List Str
  endsNL : Bool
  deriving DecidableEq

/-- The ambient filesystem: what opening an ifstream on a path yields (none
when the file cannot be opened), and the answers of the two std::filesystem
queries used by locate_pkg_repo. -/
structure FileSys where
  openF : Str → Option FileContent
  existsB : Str → Bool
  isRegB : Str → Bool

/-- Observable outcome of running one of the routines: a normal return carrying
the returned value and the lines printed to standard output, a process exit
carrying the exit code and the text printed before exiting, or an uncaught
exception terminating the process. -/
inductive PResult (α : Type) where
  | ok : α → List Str → PResult α
  | exited : Nat → Str → PResult α
  | fault : PResult α
  deriving DecidableEq

/-- The pkg_source structure: a repository source record.  The default field
values model the C++ default constructor, which value-initialises the three
std::string members to empty strings. -/
structure pkg_source where
  name : Str := []
  url : Str := []
  path : Str := []
  deriving DecidableEq

/-- pkg_source::is_valid from the source: a disjunction, true when at least one
of the three fields is non-empty. -/
def pkg_source.is_valid (s : pkg_source) : Bool :=
  !s.name.isEmpty || !s.url.isEmpty || !s.path.isEmpty

/-- The process-wide variable cache, a std::map from composite keys to cached
values, modelled as an association list in insertion order. -/
abbrev VarCache : Type := List (Str × Str)

/-- Lookup in the association list modelling the cache. -/
def cacheFind : VarCache → Str → Option Str
  | [], _ => none
  | (k0, v0) :: rest, k => if k0 = k then some v0 else cacheFind rest k

/-- A read through std::map operator square-brackets: returns the mapped value,
default-inserting an empty string first when the key is absent. -/
def cacheIdx (c : VarCache) (k : Str) : Str × VarCache :=
  match cacheFind c k with
  | some v => (v, c)
  | none => ([], c ++ [(k, [])])

/-- A write through std::map operator square-brackets: updates the value mapped
to the key, inserting when absent. -/
def cacheSet : VarCache → Str → Str → VarCache
  | [], k, v => [(k, v)]
  | (k0, v0) :: rest, k, v =>
    if k0 = k then (k, v) :: rest else (k0, v0) :: cacheSet rest k v

/-- std::string::find for a substring: index of the leftmost occurrence of
delim in text, none when there is no occurrence.  An empty delimiter occurs at
index 0 of every string, the empty string included. -/
def strFind : Str → Str → Option Nat
  | [], delim => if delim = [] then some 0 else none
  | c :: rest, delim =>
    if (c :: rest).take delim.length = delim then some 0
    else (strFind rest delim).map (fun n => n + 1)

/-- The loop of birb::split_string, with fuel bounding the iteration count.
Each iteration of the source loop erases pos + delimiter.length characters from
the front of text, at least one character when the delimiter is non-empty, so
fuel text.length + 1 is never exhausted in that case; with an empty delimiter
the C++ loop never terminates, and the fuel cutoff is an arbitrary total
completion of that divergent case.  The zero-fuel branch repeats the
after-the-loop handling of the remainder, pushed only when non-empty. -/
def splitGo : Nat → Str → Str → List Str
  | 0, text, _ => if text = [] then [] else [text]
  | fuel + 1, text, delim =>
    match strFind text delim with
    | some pos => text.take pos :: splitGo fuel (text.drop (pos + delim.length)) delim
    | none => if text = [] then [] else [text]

/-- birb::split_string from the source. -/
def split_string (text delimiter : Str) : List Str :=
  splitGo (text.length + 1) text delimiter

/-- Specification-side helper for the Text Splitter, following the spec text:
the parts obtained by repeatedly cutting at the first occurrence of the
delimiter, the trailing remainder always included, even when empty.  Same fuel
discipline as splitGo. -/
def splitPartsGo : Nat → Str → Str → List Str
  | 0, text, _ => [text]
  | fuel + 1, text, delim =>
    match strFind text delim with
    | some pos => text.take pos :: splitPartsGo fuel (text.drop (pos + delim.length)) delim
    | none => [text]

/-- Specification-side helper: drop the final part when it is empty, keeping
every earlier part. -/
def dropEmptyTail (ps : List Str) : List Str :=
  match ps.getLast? with
  | some l => if l = [] then ps.dropLast else ps
  | none => ps

/-- The Text Splitter contract as the spec words it: cut repeatedly at the
first occurrence of the delimiter; the final trailing remainder is included
only if non-empty. -/
def split_spec (text delimiter : Str) : List Str :=
  dropEmptyTail (splitPartsGo (text.length + 1) text delimiter)

/-- The line filter of birb::read_file: keep lines that are non-empty and whose
first character is not the comment character. -/
def keepLine : Str → Bool
  | [] => false
  | c :: _ => c != '#'

/-- The error message printed by birb::read_file on open failure, the missing
closing bracket of the source string faithfully included. -/
def fileErrMsg (file_path : Str) : Str :=
  str "File [" ++ file_path ++ str " can\x27t be opened!\n"

/-- birb::read_file from the source: on open failure, print the message and
exit with status 2; on success, return the retained lines, printing nothing. -/
def birb.read_file (fs : FileSys) (file_path : Str) : PResult (List Str) :=
  match fs.openF file_path with
  | none => .exited 2 (fileErrMsg file_path)
  | some f => .ok (f.lines.filter keepLine) []

/-- Modelled from the spec: PKG_SOURCE_CONFIG_PATH is a fixed, hard-coded
configuration file path defined in the Birb.hpp header, which is not among the
sources here; the spec constrains only that it is one fixed path, so the value
below is an arbitrary representative. -/
def PKG_SOURCE_CONFIG_PATH : Str := str "/etc/birb-sources.conf"

/-- The record-building loop of birb::get_pkg_sources: each line is split on a
semicolon and fields 0, 1, 2 become name, url, path.  Accessing a field of a
line with fewer than three fields is an out-of-bounds std::vector access,
undefined behavior, modelled as none. -/
def mk_sources : List Str → Option (List pkg_source)
  | [] => some []
  | l :: rest =>
    match split_string l [';'] with
    | n :: u :: p :: _ => (mk_sources rest).map (fun ss => ⟨n, u, p⟩ :: ss)
    | _ => none

/-- birb::get_pkg_sources from the source: read the configuration file (a read
failure exits the process from inside read_file) and build one record per
retained line. -/
def birb.get_pkg_sources (fs : FileSys) : PResult (List pkg_source) :=
  match birb.read_file fs PKG_SOURCE_CONFIG_PATH with
  | .ok repository_lines _ =>
    match mk_sources repository_lines with
    | some sources => .ok sources []
    | none => .fault
  | .exited c m => .exited c m
  | .fault => .fault

/-- The candidate build-script path built by birb::locate_pkg_repo. -/
def seed_file_path (s : pkg_source) (pkg_name : Str) : Str :=
  s.path ++ str "/" ++ pkg_name ++ str "/seed.sh"

/-- The loop test of birb::locate_pkg_repo: the seed path exists and is a
regular file. -/
def seed_exists (fs : FileSys) (pkg_name : Str) (s : pkg_source) : Bool :=
  fs.existsB (seed_file_path s pkg_name) && fs.isRegB (seed_file_path s pkg_name)

/-- birb::locate_pkg_repo from the source: return the first record whose seed
path passes the test, or a default-constructed record when none does. -/
def birb.locate_pkg_repo (fs : FileSys) (pkg_name : Str)
    (package_sources : List pkg_source) : pkg_source :=
  match package_sources with
  | [] => ⟨[], [], []⟩
  | s :: rest =>
    if seed_exists fs pkg_name s then s else birb.locate_pkg_repo fs pkg_name rest

/-- The scan-loop test of birb::read_pkg_variable: the substring of the line
from position 0 of length var_name.size() + 2 equals var_name followed by an
equals sign and a double quote (std::string::substr clamps the length, so a
shorter line compares unequal). -/
def varLineMatch (var_name : Str) (var_line : Str) : Bool :=
  decide (var_line.take (var_name.length + 2) = var_name ++ ['=', '\x22'])

/-- Value of the getline buffer var_line after the scan loop of
birb::read_pkg_variable: the first matching line when one exists; with no match
the loop runs to end of file, where the final failing getline call has erased
the buffer, except when the final line is unterminated, in which case the
failing call stops in its sentry and the buffer keeps that final line. -/
def scannedLine (f : FileContent) (var_name : Str) : Str :=
  match f.lines.find? (varLineMatch var_name) with
  | some l => l
  | none => if f.endsNL then [] else (f.lines.getLast?).getD []

/-- The two erase calls cleaning up var_line in birb::read_pkg_variable.
erase(0, var_name.size() + 2) always succeeds, the count being clamped to the
length.  erase(size() - 1, 1) throws std::out_of_range when the remaining
string is empty: size() - 1 wraps around to a position past the end.  none
models the thrown exception. -/
def cleanupVarLine (var_name var_line : Str) : Option Str :=
  let trimmed := var_line.drop (var_name.length + 2)
  if trimmed = [] then none else some trimmed.dropLast

/-- birb::read_pkg_variable from the source, the variable cache passed and
returned explicitly in place of the process-wide std::map.  The first cache
read default-inserts an empty entry for an absent key; a non-empty value is a
cache hit.  An open failure returns the empty string with nothing printed (the
print in the source is commented out).  After the scan, the cleanup may throw,
modelled as fault; otherwise the result is cached and returned. -/
def birb.read_pkg_variable (fs : FileSys) (pkg_name var_name repo_path : Str)
    (var_cache : VarCache) : PResult (Str × VarCache) :=
  let key := pkg_name ++ var_name
  let looked := cacheIdx var_cache key
  if looked.1 ≠ [] then .ok (looked.1, looked.2) []
  else
    let pkg_path := repo_path ++ str "/" ++ pkg_name ++ str "/seed.sh"
    match fs.openF pkg_path with
    | none => .ok ([], looked.2) []
    | some f =>
      match cleanupVarLine var_name (scannedLine f var_name) with
      | none => .fault
      | some var_line => .ok (var_line, cacheSet looked.2 key var_line) []

/-! Concrete fixtures used in the closed evaluation theorems below. -/

/-- A filesystem on which nothing can be opened and no path exists. -/
def fsNone : FileSys where
  openF := fun _ => none
  existsB := fun _ => false
  isRegB := fun _ => false

/-- A filesystem holding an empty (zero-line) build script for package alpha. -/
def fsAlpha : FileSys where
  openF := fun p => if p = str "/repo/alpha/seed.sh" then some ⟨[], true⟩ else none
  existsB := fun _ => false
  isRegB := fun _ => false

/-- A filesystem whose build script for package beta consists of the single line
DEPENDS=\x22 with nothing after the opening quote. -/
def fsBeta : FileSys where
  openF := fun p =>
    if p = str "/r2/beta/seed.sh" then some ⟨[str "DEPENDS=\""], true⟩ else none
  existsB := fun _ => false
  isRegB := fun _ => false

/-- A filesystem whose build script for package eps contains the line
DEPENDS=\x22foo bar\x22. -/
def fsEps : FileSys where
  openF := fun p =>
    if p = str "/r6/eps/seed.sh" then some ⟨[str "DEPENDS=\"foo bar\""], true⟩ else none
  existsB := fun _ => false
  isRegB := fun _ => false

/-- A filesystem whose build script for package delta contains the line
DEPENDS=\x22foo bar\x22. -/
def fsDelta : FileSys where
  openF := fun p =>
    if p = str "/r5/delta/seed.sh" then some ⟨[str "DEPENDS=\"foo bar\""], true⟩ else none
  existsB := fun _ => false
  isRegB := fun _ => false

/-- A filesystem on which exactly the path /b/pkg/seed.sh exists as a regular
file. -/
def fsB : FileSys where
  openF := fun _ => none
  existsB := fun p => decide (p = str "/b/pkg/seed.sh")
  isRegB := fun p => decide (p = str "/b/pkg/seed.sh")

/-- Repository source record with path /a. -/
def srcA : pkg_source := ⟨str "A", str "uA", str "/a"⟩

/-- Repository source record with path /b. -/
def srcB : pkg_source := ⟨str "B", str "uB", str "/b"⟩

/-- A second repository source record with path /b, placed after srcB. -/
def srcC : pkg_source := ⟨str "C", str "uC", str "/b"⟩

/-- A filesystem holding a configuration file with a comment line, a blank line
and two well-formed three-field lines. -/
def fsConf : FileSys where
  openF := fun p =>
    if p = PKG_SOURCE_CONFIG_PATH then
      some ⟨[str "# repos", str "", str "pkgsA;https://x;/repo/a",
             str "pkgsB;https://y;/repo/b"], true⟩
    else none
  existsB := fun _ => false
  isRegB := fun _ => false

/-! Helper lemmas shared by the claim theorems. -/

/-- Appending a binding for an absent key makes lookup find it. -/
theorem cacheFind_append_of_none (c : VarCache) (k v : Str)
    (h : cacheFind c k = none) : cacheFind (c ++ [(k, v)]) k = some v := by
  induction c with
  | nil => simp [cacheFind]
  | cons e rest ih =>
    obtain ⟨k0, v0⟩ := e
    simp only [cacheFind] at h
    by_cases hk : k0 = k
    · rw [if_pos hk] at h; exact absurd h (by simp)
    · rw [if_neg hk] at h
      rw [List.cons_append]
      simp only [cacheFind]
      rw [if_neg hk]
      exact ih h

/-- After a defaulting read, the cache maps the key to the value read. -/
theorem cacheFind_cacheIdx (c : VarCache) (k : Str) :
    cacheFind (cacheIdx c k).2 k = some (cacheIdx c k).1 := by
  unfold cacheIdx
  cases h : cacheFind c k with
  | some v => simpa using h
  | none => simpa using cacheFind_append_of_none c k [] h

/-- After a write, the cache maps the key to the written value. -/
theorem cacheFind_cacheSet (c : VarCache) (k v : Str) :
    cacheFind (cacheSet c k v) k = some v := by
  induction c with
  | nil => simp [cacheSet, cacheFind]
  | cons e rest ih =>
    obtain ⟨k0, v0⟩ := e
    simp only [cacheSet]
    by_cases hk : k0 = k
    · simp [hk, cacheFind]
    · simp [hk, cacheFind, ih]

/-- When the cache maps the composite key to a non-empty value, the extractor
returns it at once and leaves the cache unchanged, whatever the filesystem. -/
theorem read_cache_hit (fs : FileSys) (pkg_name var_name repo_path : Str)
    (c : VarCache) (val : Str)
    (hfind : cacheFind c (pkg_name ++ var_name) = some val) (hval : val ≠ []) :
    birb.read_pkg_variable fs pkg_name var_name repo_path c = .ok (val, c) [] := by
  have hidx : cacheIdx c (pkg_name ++ var_name) = (val, c) := by
    unfold cacheIdx; rw [hfind]
  simp only [birb.read_pkg_variable, hidx]
  simp [hval]

/-- Whenever the extractor returns normally, the resulting cache holds an entry
for the composite key, and a non-empty returned value is that entry's value. -/
theorem read_ok_cacheFind (fs : FileSys) (pkg_name var_name repo_path : Str)
    (c : VarCache) (val : Str) (c2 : VarCache) (out : List Str)
    (h : birb.read_pkg_variable fs pkg_name var_name repo_path c = .ok (val, c2) out) :
    (cacheFind c2 (pkg_name ++ var_name)).isSome = true ∧
      (val ≠ [] → cacheFind c2 (pkg_name ++ var_name) = some val) := by
  simp only [birb.read_pkg_variable] at h
  split at h
  · simp only [PResult.ok.injEq, Prod.mk.injEq] at h
    obtain ⟨⟨h1, h2⟩, _⟩ := h
    subst h1 h2
    refine ⟨by simp [cacheFind_cacheIdx], fun _ => cacheFind_cacheIdx c (pkg_name ++ var_name)⟩
  · split at h
    · simp only [PResult.ok.injEq, Prod.mk.injEq] at h
      obtain ⟨⟨h1, h2⟩, _⟩ := h
      subst h1 h2
      refine ⟨by simp [cacheFind_cacheIdx], fun hne => absurd rfl hne⟩
    · split at h
      · exact absurd h (by simp)
      · simp only [PResult.ok.injEq, Prod.mk.injEq] at h
        obtain ⟨⟨h1, h2⟩, _⟩ := h
        subst h1 h2
        refine ⟨by simp [cacheFind_cacheSet], fun _ => cacheFind_cacheSet _ _ _⟩

/-- The all-parts helper never produces an empty list of parts. -/
theorem splitPartsGo_ne_nil (fuel : Nat) (text delim : Str) :
    splitPartsGo fuel text delim ≠ [] := by
  cases fuel with
  | zero => simp [splitPartsGo]
  | succ n =>
    simp only [splitPartsGo]
    split <;> simp

/-- Dropping an empty trailing part commutes with prepending a part. -/
theorem dropEmptyTail_cons (x : Str) (ps : List Str) (h : ps ≠ []) :
    dropEmptyTail (x :: ps) = x :: dropEmptyTail ps := by
  match ps, h with
  | y :: ys, _ =>
    simp only [dropEmptyTail, List.getLast?_cons_cons]
    cases hgl : (y :: ys).getLast? with
    | none => simp at hgl
    | some l =>
      by_cases hl : l = []
      · simp [hl]
      · simp [hl]

/-- The split loop produces exactly the all-parts list with an empty trailing
part dropped, fuel for fuel. -/
theorem splitGo_eq_dropEmptyTail (fuel : Nat) (text delim : Str) :
    splitGo fuel text delim = dropEmptyTail (splitPartsGo fuel text delim) := by
  induction fuel generalizing text with
  | zero =>
    by_cases h : text = [] <;> simp [splitGo, splitPartsGo, dropEmptyTail, h]
  | succ n ih =>
    simp only [splitGo, splitPartsGo]
    cases hf : strFind text delim with
    | none =>
      by_cases h : text = [] <;> simp [dropEmptyTail, h]
    | some pos =>
      dsimp only
      rw [ih]
      rw [dropEmptyTail_cons _ _ (splitPartsGo_ne_nil n (text.drop (pos + delim.length)) delim)]

/-- With at least three fields on every line, the record-building loop succeeds
and maps fields zero, one, two of each line to name, url, path. -/
theorem mk_sources_eq_map (lines : List Str)
    (h : ∀ l ∈ lines, 3 ≤ (split_string l [';']).length) :
    mk_sources lines = some (lines.map (fun l =>
      ⟨(split_string l [';']).getD 0 [], (split_string l [';']).getD 1 [],
       (split_string l [';']).getD 2 []⟩)) := by
  induction lines with
  | nil => rfl
  | cons l rest ih =>
    have h3 : 3 ≤ (split_string l [';']).length := h l (List.mem_cons_self l rest)
    obtain ⟨n, u, p, tail, hsplit⟩ :
        ∃ n u p tail, split_string l [';'] = n :: u :: p :: tail := by
      match hs : split_string l [';'] with
      | n :: u :: p :: tail => exact ⟨n, u, p, tail, rfl⟩
      | [] => rw [hs] at h3; simp at h3
      | [n] => rw [hs] at h3; simp at h3
      | [n, u] => rw [hs] at h3; simp at h3
    simp only [mk_sources, hsplit, List.map_cons]
    rw [ih (fun x hx => h x (List.mem_cons_of_mem _ hx))]
    simp [hsplit]

/-! Claim theorems. -/

/-- C1: on a build script that opens successfully but contains no line matching
the variable prefix, the post-scan cleanup does not operate safely: on the
empty residual line the trailing-character erase is an out-of-range erase and
the call terminates the process instead of returning an empty string.  The
evaluation below exhibits this at an empty build script. -/
theorem read_pkg_variable_empty_script_faults :
    fsAlpha.openF (str "/repo" ++ str "/" ++ str "alpha" ++ str "/seed.sh") =
      some ⟨[], true⟩ ∧
    birb.read_pkg_variable fsAlpha (str "alpha") (str "DEPENDS") (str "/repo") [] =
      .fault := by
  constructor
  · decide
  · decide

/-- C2 counterexample: a build script that opens successfully and whose single
line has exactly the prefix DEPENDS=\x22 (and nothing after it) makes
read_pkg_variable terminate the process rather than return the stripped
line. -/
theorem read_pkg_variable_bare_prefix_line_faults :
    varLineMatch (str "DEPENDS") (str "DEPENDS=\"") = true ∧
    birb.read_pkg_variable fsBeta (str "beta") (str "DEPENDS") (str "/r2") [] =
      .fault := by
  constructor
  · decide
  · decide

/-- C2 amended: starting from a cache with no usable entry for the composite
key, when the build script opens and its first line matching the variable
prefix is strictly longer than the prefix, read_pkg_variable returns that first
matching line with the leading prefix characters and the final character
removed (and caches it). -/
theorem read_pkg_variable_first_match_stripped (fs : FileSys)
    (pkg_name var_name repo_path : Str) (cache : VarCache) (f : FileContent) (l : Str)
    (hmiss : (cacheIdx cache (pkg_name ++ var_name)).1 = [])
    (hopen : fs.openF (repo_path ++ str "/" ++ pkg_name ++ str "/seed.sh") = some f)
    (hfind : f.lines.find? (varLineMatch var_name) = some l)
    (hlen : var_name.length + 2 < l.length) :
    birb.read_pkg_variable fs pkg_name var_name repo_path cache =
      .ok ((l.drop (var_name.length + 2)).dropLast,
        cacheSet (cacheIdx cache (pkg_name ++ var_name)).2 (pkg_name ++ var_name)
          ((l.drop (var_name.length + 2)).dropLast)) [] := by
  have htrim : l.drop (var_name.length + 2) ≠ [] := by
    intro hnil
    have := List.drop_eq_nil_iff.mp hnil
    omega
  simp only [birb.read_pkg_variable, hmiss, hopen, scannedLine, hfind,
    cleanupVarLine, htrim]
  simp [htrim]

/-- C2 witness: on a script containing the line DEPENDS=\x22foo bar\x22 with
variable name DEPENDS, the call returns foo bar. -/
theorem read_pkg_variable_first_match_stripped_witness :
    birb.read_pkg_variable fsEps (str "eps") (str "DEPENDS") (str "/r6") [] =
      .ok (str "foo bar", [(str "epsDEPENDS", str "foo bar")]) [] := by
  have h := read_pkg_variable_first_match_stripped fsEps (str "eps") (str "DEPENDS")
    (str "/r6") [] ⟨[str "DEPENDS=\"foo bar\""], true⟩ (str "DEPENDS=\"foo bar\"")
    (by decide) (by decide) (by decide) (by decide)
  exact h.trans (by decide)

/-- C3: locate_pkg_repo returns the first record, in input order, whose seed
path exists as a regular file, never considering later records; when no record
passes the test it returns a default record with all three attributes empty. -/
theorem locate_pkg_repo_first_match :
    (∀ (fs : FileSys) (pkg : Str) (pre : List pkg_source) (s : pkg_source)
      (post : List pkg_source),
      (∀ t ∈ pre, seed_exists fs pkg t = false) → seed_exists fs pkg s = true →
      birb.locate_pkg_repo fs pkg (pre ++ s :: post) = s) ∧
    (∀ (fs : FileSys) (pkg : Str) (srcs : List pkg_source),
      (∀ t ∈ srcs, seed_exists fs pkg t = false) →
      birb.locate_pkg_repo fs pkg srcs = ⟨[], [], []⟩) := by
  constructor
  · intro fs pkg pre s post hpre hs
    induction pre with
    | nil => simp [birb.locate_pkg_repo, hs]
    | cons t rest ih =>
      have ht : seed_exists fs pkg t = false := hpre t (List.mem_cons_self t rest)
      simp only [List.cons_append, birb.locate_pkg_repo, ht]
      simp only [Bool.false_eq_true, if_false]
      exact ih (fun x hx => hpre x (List.mem_cons_of_mem _ hx))
  · intro fs pkg srcs hall
    induction srcs with
    | nil => rfl
    | cons t rest ih =>
      have ht : seed_exists fs pkg t = false := hall t (List.mem_cons_self t rest)
      simp only [birb.locate_pkg_repo, ht]
      simp only [Bool.false_eq_true, if_false]
      exact ih (fun x hx => hall x (List.mem_cons_of_mem _ hx))

/-- C3 witness: with only the path /b/pkg/seed.sh present, the locator skips
the record with path /a, returns the first of the two records with path /b,
and returns the all-empty record for a package no repository has. -/
theorem locate_pkg_repo_first_match_witness :
    birb.locate_pkg_repo fsB (str "pkg") [srcA, srcB, srcC] = srcB ∧
    birb.locate_pkg_repo fsB (str "other") [srcA, srcB, srcC] = ⟨[], [], []⟩ := by
  constructor
  · exact locate_pkg_repo_first_match.1 fsB (str "pkg") [srcA] srcB [srcC]
      (by decide) (by decide)
  · exact locate_pkg_repo_first_match.2 fsB (str "other") [srcA, srcB, srcC]
      (by decide)

/-- C4: for a non-empty delimiter, split_string produces the parts obtained by
repeatedly cutting at the leftmost delimiter occurrence, the trailing remainder
kept only when non-empty; together with the four concrete examples from the
spec. -/
theorem split_string_cuts_and_examples :
    (∀ text delimiter : Str, delimiter ≠ [] →
      split_string text delimiter = split_spec text delimiter) ∧
    split_string (str "a;b;c") (str ";") = [str "a", str "b", str "c"] ∧
    split_string (str "a;;c") (str ";") = [str "a", str "", str "c"] ∧
    split_string (str "a;") (str ";") = [str "a"] ∧
    split_string (str "") (str ";") = [] := by
  refine ⟨fun text delimiter _ => splitGo_eq_dropEmptyTail (text.length + 1) text delimiter,
    by decide, by decide, by decide, by decide⟩

/-- C4 witness: the general cut description instantiated at a concrete input
with a two-character delimiter. -/
theorem split_string_cuts_witness :
    split_string (str "x--y--") (str "--") = split_spec (str "x--y--") (str "--") :=
  split_string_cuts_and_examples.1 (str "x--y--") (str "--") (by decide)

/-- C5: once a call has returned a non-empty value, as in the DEPENDS example,
a repeat call with identical arguments is a cache hit: it returns the same
value with the cache unchanged, and the filesystem of the second call is
arbitrary, so removing or corrupting the build script in between cannot change
the second result. -/
theorem read_pkg_variable_second_call_cached (fs : FileSys)
    (pkg_name var_name repo_path : Str) (cache : VarCache) (val : Str)
    (c2 : VarCache) (out : List Str)
    (h1 : birb.read_pkg_variable fs pkg_name var_name repo_path cache =
      .ok (val, c2) out)
    (hval : val ≠ []) :
    ∀ fs2 : FileSys,
      birb.read_pkg_variable fs2 pkg_name var_name repo_path c2 = .ok (val, c2) [] := by
  intro fs2
  have hfind := (read_ok_cacheFind fs pkg_name var_name repo_path cache val c2 out h1).2 hval
  exact read_cache_hit fs2 pkg_name var_name repo_path c2 val hfind hval

/-- C5 witness: after extracting foo bar for package delta, a second call on a
filesystem where the build script no longer opens still returns foo bar. -/
theorem read_pkg_variable_second_call_cached_witness :
    birb.read_pkg_variable fsNone (str "delta") (str "DEPENDS") (str "/r5")
      [(str "deltaDEPENDS", str "foo bar")] =
      .ok (str "foo bar", [(str "deltaDEPENDS", str "foo bar")]) [] :=
  read_pkg_variable_second_call_cached fsDelta (str "delta") (str "DEPENDS") (str "/r5")
    [] (str "foo bar") [(str "deltaDEPENDS", str "foo bar")] [] (by decide) (by decide)
    fsNone

/-- C6: starting from a cache with no usable entry for the composite key, when
the build script cannot be opened, read_pkg_variable returns normally with the
empty string, printing nothing and not terminating the process. -/
theorem read_pkg_variable_open_failure_silent (fs : FileSys)
    (pkg_name var_name repo_path : Str) (cache : VarCache)
    (hmiss : (cacheIdx cache (pkg_name ++ var_name)).1 = [])
    (hopen : fs.openF (repo_path ++ str "/" ++ pkg_name ++ str "/seed.sh") = none) :
    birb.read_pkg_variable fs pkg_name var_name repo_path cache =
      .ok ([], (cacheIdx cache (pkg_name ++ var_name)).2) [] := by
  simp only [birb.read_pkg_variable, hmiss, hopen]
  simp

/-- C6 witness: on a filesystem where nothing opens, the call returns the empty
string normally, with no output. -/
theorem read_pkg_variable_open_failure_silent_witness :
    birb.read_pkg_variable fsNone (str "gamma") (str "SRC") (str "/r3") [] =
      .ok ([], [(str "gamma" ++ str "SRC", [])]) [] := by
  have h := read_pkg_variable_open_failure_silent fsNone (str "gamma") (str "SRC")
    (str "/r3") [] (by decide) rfl
  exact h.trans (by decide)

/-- C7: when the file cannot be opened, read_file prints a message containing
the unreadable path to standard output and exits the process with status 2,
never returning a value. -/
theorem read_file_open_failure_exits (fs : FileSys) (file_path : Str)
    (hopen : fs.openF file_path = none) :
    birb.read_file fs file_path = .exited 2 (fileErrMsg file_path) ∧
      ∃ before after : Str, before ++ file_path ++ after = fileErrMsg file_path := by
  constructor
  · simp [birb.read_file, hopen]
  · exact ⟨str "File [", str " can\x27t be opened!\n", by simp [fileErrMsg]⟩

/-- C7 witness: the exit behaviour evaluated at a concrete unreadable path. -/
theorem read_file_open_failure_exits_witness :
    birb.read_file fsNone (str "/x") = .exited 2 (fileErrMsg (str "/x")) ∧
      ∃ before after : Str, before ++ str "/x" ++ after = fileErrMsg (str "/x") :=
  read_file_open_failure_exits fsNone (str "/x") rfl

/-- C8: when the configuration file opens and every retained line splits on the
semicolon into at least three fields, get_pkg_sources returns one record per
retained line in file order, mapping field zero to name, field one to url and
field two to path. -/
theorem get_pkg_sources_maps_fields (fs : FileSys) (f : FileContent)
    (hopen : fs.openF PKG_SOURCE_CONFIG_PATH = some f)
    (hfields : ∀ l ∈ f.lines.filter keepLine, 3 ≤ (split_string l [';']).length) :
    birb.get_pkg_sources fs = .ok ((f.lines.filter keepLine).map (fun l =>
      ⟨(split_string l [';']).getD 0 [], (split_string l [';']).getD 1 [],
       (split_string l [';']).getD 2 []⟩)) [] := by
  simp only [birb.get_pkg_sources, birb.read_file, hopen]
  rw [mk_sources_eq_map _ hfields]

/-- C8 witness: a configuration file with a comment line, a blank line and two
three-field lines yields the two positionally mapped records. -/
theorem get_pkg_sources_maps_fields_witness :
    birb.get_pkg_sources fsConf =
      .ok [⟨str "pkgsA", str "https://x", str "/repo/a"⟩,
           ⟨str "pkgsB", str "https://y", str "/repo/b"⟩] [] := by
  have h := get_pkg_sources_maps_fields fsConf
    ⟨[str "# repos", str "", str "pkgsA;https://x;/repo/a",
      str "pkgsB;https://y;/repo/b"], true⟩ (by decide) (by decide)
  exact h.trans (by decide)

/-- C9: is_valid is true exactly when at least one of the three attributes is
non-empty, so it is false exactly on the all-empty record. -/
theorem is_valid_iff_some_field_nonempty (s : pkg_source) :
    (pkg_source.is_valid s = true ↔ (s.name ≠ [] ∨ s.url ≠ [] ∨ s.path ≠ [])) ∧
    (pkg_source.is_valid s = false ↔ s = ⟨[], [], []⟩) := by
  obtain ⟨n, u, p⟩ := s
  constructor
  · simp [pkg_source.is_valid, or_assoc]
  · simp [pkg_source.is_valid, pkg_source.mk.injEq, and_assoc]

/-- C10: whenever read_pkg_variable returns, the resulting cache holds an entry
for the composite key, the open-failure path included, because the initial
defaulting map read itself inserts an empty entry for an absent key. -/
theorem read_pkg_variable_key_present_after_return (fs : FileSys)
    (pkg_name var_name repo_path : Str) (cache : VarCache) (val : Str)
    (c2 : VarCache) (out : List Str)
    (h : birb.read_pkg_variable fs pkg_name var_name repo_path cache =
      .ok (val, c2) out) :
    (cacheFind c2 (pkg_name ++ var_name)).isSome = true :=
  (read_ok_cacheFind fs pkg_name var_name repo_path cache val c2 out h).1

/-- C10 witness: on the open-failure path the key is present afterwards even
though the call returned the empty string without an explicit store. -/
theorem read_pkg_variable_key_present_after_return_witness :
    (cacheFind [(str "p" ++ str "V", [])] (str "p" ++ str "V")).isSome = true :=
  read_pkg_variable_key_present_after_return fsNone (str "p") (str "V") (str "/r")
    [] [] [(str "p" ++ str "V", [])] [] (by decide)
